import Mathlib

/-!
Verification of the alarm scheduler core of the `xiaozhi-esp32` repository
(`main/alarm_manager.cc` / `main/alarm_manager.h`).

The alarm manager is embedded shallowly: every operation of the C++ class
`AlarmManager` that the claims mention is translated into a pure Lean
function over an explicit state.  Machine integers (`int`, `int64_t`) are
modelled as `Int` (no operation here overflows 64 bits on the value ranges
the code manipulates); `uint8_t weekdays_mask` is modelled as a `Nat`
truncated with `% 256` where the C code performs an implicit narrowing
conversion.  The mutex, logging and the NVS key/value store are external
collaborators: persistence is modelled by the record serialisation
functions below, and callback emission is modelled by returning the list
of emitted events.
-/

/-- `enum AlarmRepeatMode` from `alarm_manager.h`. -/
inductive AlarmRepeatMode
  | once
  | daily
  | weekdays
  | weekends
  | custom
deriving DecidableEq

/-- `enum AlarmStatus` from `alarm_manager.h`. -/
inductive AlarmStatus
  | enabled
  | disabled
  | triggered
  | snoozed
deriving DecidableEq

/-- `struct AlarmItem` from `alarm_manager.h`. -/
structure AlarmItem where
  id : Int
  hour : Int
  minute : Int
  repeat_mode : AlarmRepeatMode
  weekdays_mask : Nat
  status : AlarmStatus
  label : String
  music_name : String
  snooze_count : Int
  max_snooze_count : Int
  snooze_minutes : Int
  last_triggered_time : Int
  next_snooze_time : Int
deriving DecidableEq

/-- The `AlarmItem()` default constructor from `alarm_manager.h`. -/
def defaultAlarmItem : AlarmItem :=
  { id := 0, hour := 0, minute := 0, repeat_mode := AlarmRepeatMode.once,
    weekdays_mask := 0, status := AlarmStatus.enabled, label := "",
    music_name := "", snooze_count := 0, max_snooze_count := 3,
    snooze_minutes := 5, last_triggered_time := 0, next_snooze_time := 0 }

/-- The callbacks the manager can emit (`on_alarm_triggered_`,
`on_alarm_snoozed_`, `on_alarm_stopped_`), with the alarm snapshot that is
passed to the callback. -/
inductive AlarmEvent
  | onTriggered (a : AlarmItem)
  | onSnoozed (a : AlarmItem)
  | onStopped (a : AlarmItem)
deriving DecidableEq

/-- The mutable fields of the `AlarmManager` singleton that the claims
are about: the owned alarm list, the persisted id counter, and the two
process-wide defaults. -/
structure AlarmManagerState where
  alarms : List AlarmItem
  next_alarm_id : Int
  default_snooze_minutes : Int
  default_max_snooze_count : Int
deriving DecidableEq

/-- The state right after the constructor runs (`next_alarm_id_ = 1`,
`default_snooze_minutes_ = 5`, `default_max_snooze_count_ = 3`). -/
def initialManagerState : AlarmManagerState :=
  { alarms := [], next_alarm_id := 1, default_snooze_minutes := 5,
    default_max_snooze_count := 3 }

/-- `std::find_if` by id over the alarm list, as used throughout
`alarm_manager.cc`: the first alarm whose `id` matches. -/
def findAlarm : List AlarmItem → Int → Option AlarmItem
  | [], _ => none
  | a :: rest, i => if a.id = i then some a else findAlarm rest i

/-- In-place mutation through the iterator returned by `std::find_if`:
apply `f` to the first alarm whose `id` matches, leave the rest alone. -/
def updateAlarm (f : AlarmItem → AlarmItem) : List AlarmItem → Int → List AlarmItem
  | [], _ => []
  | a :: rest, i => if a.id = i then f a :: rest else a :: updateAlarm f rest i

/-- `AlarmManager::IsWeekdayActive` (alarm_manager.cc:528): one-shot
alarms are weekday-agnostic, otherwise test bit `weekday` of the mask. -/
def IsWeekdayActive (a : AlarmItem) (weekday : Nat) : Bool :=
  if a.repeat_mode = AlarmRepeatMode.once then true
  else decide ((a.weekdays_mask &&& (1 <<< weekday)) ≠ 0)

/-- `AlarmManager::ShouldTriggerToday` (alarm_manager.cc:650), with the
current weekday passed explicitly. -/
def ShouldTriggerToday (a : AlarmItem) (weekday : Nat) : Bool :=
  if a.repeat_mode = AlarmRepeatMode.once then true
  else IsWeekdayActive a weekday

/-- The alarm freshly built by `AlarmManager::AddAlarm`
(alarm_manager.cc:80-105): explicit field assignments plus the
repeat-mode switch that derives `weekdays_mask`; fields the C++ code does
not touch keep the `AlarmItem()` constructor defaults. -/
def madeAlarm (s : AlarmManagerState) (hour minute : Int)
    (mode : AlarmRepeatMode) (label music_name : String) : AlarmItem :=
  { defaultAlarmItem with
    id := s.next_alarm_id, hour := hour, minute := minute,
    repeat_mode := mode, label := label, music_name := music_name,
    status := AlarmStatus.enabled,
    snooze_minutes := s.default_snooze_minutes,
    max_snooze_count := s.default_max_snooze_count,
    weekdays_mask :=
      match mode with
      | AlarmRepeatMode.daily => 0b1111111
      | AlarmRepeatMode.weekdays => 0b0111110
      | AlarmRepeatMode.weekends => 0b1000001
      | _ => 0 }

/-- `AlarmManager::AddAlarm` (alarm_manager.cc:66): validate the time,
build the alarm, append it, bump the persisted id counter; returns the
new id, or -1 on invalid time. -/
def AddAlarm (s : AlarmManagerState) (hour minute : Int)
    (mode : AlarmRepeatMode) (label music_name : String) :
    Int × AlarmManagerState :=
  if hour < 0 ∨ hour > 23 ∨ minute < 0 ∨ minute > 59 then (-1, s)
  else
    let a := madeAlarm s hour minute mode label music_name
    (a.id,
     { s with alarms := s.alarms ++ [a],
              next_alarm_id := s.next_alarm_id + 1 })

/-- The per-alarm mutation performed by `AlarmManager::ModifyAlarm`
(alarm_manager.cc:177-197): overwrite time/mode/label/music, then
re-derive the mask — the `default:` arm of the switch leaves the existing
mask untouched. -/
def modifiedAlarm (hour minute : Int) (mode : AlarmRepeatMode)
    (label music_name : String) (a : AlarmItem) : AlarmItem :=
  let b := { a with hour := hour, minute := minute, repeat_mode := mode,
                    label := label, music_name := music_name }
  match mode with
  | AlarmRepeatMode.daily => { b with weekdays_mask := 0b1111111 }
  | AlarmRepeatMode.weekdays => { b with weekdays_mask := 0b0111110 }
  | AlarmRepeatMode.weekends => { b with weekdays_mask := 0b1000001 }
  | _ => b

/-- `AlarmManager::ModifyAlarm` (alarm_manager.cc:161). -/
def ModifyAlarm (s : AlarmManagerState) (alarm_id : Int)
    (hour minute : Int) (mode : AlarmRepeatMode)
    (label music_name : String) : Bool × AlarmManagerState :=
  if hour < 0 ∨ hour > 23 ∨ minute < 0 ∨ minute > 59 then (false, s)
  else
    match findAlarm s.alarms alarm_id with
    | none => (false, s)
    | some _ =>
      let l := updateAlarm (modifiedAlarm hour minute mode label music_name)
                 s.alarms alarm_id
      (true, { s with alarms := l })

/-- `AlarmManager::EnableAlarm` (alarm_manager.cc:141): note the code
overwrites `status` of whatever alarm it finds, with no check of the
current status. -/
def EnableAlarm (s : AlarmManagerState) (alarm_id : Int)
    (enabled : Bool) : Bool × AlarmManagerState :=
  match findAlarm s.alarms alarm_id with
  | none => (false, s)
  | some _ =>
    let f := fun (a : AlarmItem) =>
      { a with status := if enabled then AlarmStatus.enabled
                         else AlarmStatus.disabled }
    (true, { s with alarms := updateAlarm f s.alarms alarm_id })

/-- The per-alarm mutation of `AlarmManager::StopAlarm`
(alarm_manager.cc:372-375): one-shot alarms self-disable, repeating
alarms re-arm; snooze counter and deadline are cleared. -/
def stoppedAlarm (a : AlarmItem) : AlarmItem :=
  { a with
    status := if a.repeat_mode = AlarmRepeatMode.once
              then AlarmStatus.disabled else AlarmStatus.enabled,
    snooze_count := 0, next_snooze_time := 0 }

/-- `AlarmManager::StopAlarm` (alarm_manager.cc:359): valid only when the
found alarm is Triggered or Snoozed; emits `OnStopped` with the
post-mutation snapshot. -/
def StopAlarm (s : AlarmManagerState) (alarm_id : Int) :
    Bool × AlarmManagerState × List AlarmEvent :=
  match findAlarm s.alarms alarm_id with
  | none => (false, s, [])
  | some a =>
    if a.status = AlarmStatus.triggered ∨ a.status = AlarmStatus.snoozed then
      (true,
       { s with alarms := updateAlarm (fun _ => stoppedAlarm a) s.alarms alarm_id },
       [AlarmEvent.onStopped (stoppedAlarm a)])
    else (false, s, [])

/-- The per-alarm mutation of the successful branch of
`AlarmManager::SnoozeAlarm` (alarm_manager.cc:339-341), at monotonic
time `now_sec` (`esp_timer_get_time() / 1000000`). -/
def snoozedAlarm (now_sec : Int) (a : AlarmItem) : AlarmItem :=
  { a with status := AlarmStatus.snoozed,
           snooze_count := a.snooze_count + 1,
           next_snooze_time := now_sec + a.snooze_minutes * 60 }

/-- `AlarmManager::SnoozeAlarm` (alarm_manager.cc:327): only acts on a
Triggered alarm; below the ceiling it snoozes and emits `OnSnoozed`,
at the ceiling it invokes `StopAlarm` and returns false regardless. -/
def SnoozeAlarm (s : AlarmManagerState) (alarm_id : Int) (now_sec : Int) :
    Bool × AlarmManagerState × List AlarmEvent :=
  match findAlarm s.alarms alarm_id with
  | none => (false, s, [])
  | some a =>
    if a.status = AlarmStatus.triggered then
      if a.snooze_count < a.max_snooze_count then
        (true,
         { s with alarms :=
             updateAlarm (fun _ => snoozedAlarm now_sec a) s.alarms alarm_id },
         [AlarmEvent.onSnoozed (snoozedAlarm now_sec a)])
      else
        let r := StopAlarm s alarm_id
        (false, r.2.1, r.2.2)
    else (false, s, [])

/-- The loop body of `AlarmManager::StopAllActiveAlarms`
(alarm_manager.cc:396-406), processing the alarms in stored order. -/
def stopAllAux : List AlarmItem → List AlarmItem × List AlarmEvent
  | [] => ([], [])
  | a :: rest =>
    let r := stopAllAux rest
    if a.status = AlarmStatus.triggered ∨ a.status = AlarmStatus.snoozed then
      (stoppedAlarm a :: r.1, AlarmEvent.onStopped (stoppedAlarm a) :: r.2)
    else (a :: r.1, r.2)

/-- `AlarmManager::StopAllActiveAlarms` (alarm_manager.cc:389). -/
def StopAllActiveAlarms (s : AlarmManagerState) :
    AlarmManagerState × List AlarmEvent :=
  let r := stopAllAux s.alarms
  ({ s with alarms := r.1 }, r.2)

/-- The body of the per-alarm loop of `AlarmManager::CheckAlarms`
(alarm_manager.cc:421-472): snooze-expiry first (and `continue`), then
the Enabled / exact-minute / weekday / 60-second-re-fire-guard chain.
`now_sec` is the monotonic clock, `now_min` the wall-clock minute of day,
`wd` the current weekday. -/
def checkAlarmItem (now_sec now_min : Int) (wd : Nat) (a : AlarmItem) :
    AlarmItem × List AlarmEvent :=
  if a.status = AlarmStatus.snoozed ∧ now_sec ≥ a.next_snooze_time then
    let b := { a with status := AlarmStatus.triggered, next_snooze_time := 0 }
    (b, [AlarmEvent.onTriggered b])
  else if a.status ≠ AlarmStatus.enabled then (a, [])
  else if a.hour * 60 + a.minute ≠ now_min then (a, [])
  else if ¬ ShouldTriggerToday a wd then (a, [])
  else if a.last_triggered_time > 0 ∧ now_sec - a.last_triggered_time < 60 then
    (a, [])
  else
    let b := { a with status := AlarmStatus.triggered,
                      last_triggered_time := now_sec, snooze_count := 0 }
    (b, [AlarmEvent.onTriggered b])

/-- `AlarmManager::CheckAlarms` (alarm_manager.cc:411) over the alarm
list, collecting the emitted events in order. -/
def CheckAlarms (now_sec now_min : Int) (wd : Nat) :
    List AlarmItem → List AlarmItem × List AlarmEvent
  | [] => ([], [])
  | a :: rest =>
    let h := checkAlarmItem now_sec now_min wd a
    let r := CheckAlarms now_sec now_min wd rest
    (h.1 :: r.1, h.2 ++ r.2)

/-- `AlarmManager::SetDefaultSnoozeMinutes` (alarm_manager.cc:487). -/
def SetDefaultSnoozeMinutes (s : AlarmManagerState) (minutes : Int) :
    AlarmManagerState :=
  { s with default_snooze_minutes := max 1 (min 60 minutes) }

/-- `AlarmManager::SetDefaultMaxSnoozeCount` (alarm_manager.cc:491). -/
def SetDefaultMaxSnoozeCount (s : AlarmManagerState) (count : Int) :
    AlarmManagerState :=
  { s with default_max_snooze_count := max 0 (min 10 count) }

/-- One serialized alarm record, as written by
`AlarmManager::SaveAlarmToStorage` (alarm_manager.cc:607) and read back by
`AlarmManager::LoadAlarmsFromStorage` (alarm_manager.cc:537).  Each field
is optional because the loader only assigns a field when
`cJSON_GetObjectItem` finds the corresponding key. -/
structure AlarmRecord where
  id : Option Int
  hour : Option Int
  minute : Option Int
  repeatMode : Option AlarmRepeatMode
  weekdays : Option Nat
  status : Option AlarmStatus
  label : Option String
  music : Option String
  snooze_minutes : Option Int
  max_snooze : Option Int
deriving DecidableEq

/-- `AlarmManager::SaveAlarmToStorage` (alarm_manager.cc:612-623): the
JSON object carries every persisted field of the alarm. -/
def serializeAlarm (a : AlarmItem) : AlarmRecord :=
  { id := some a.id, hour := some a.hour, minute := some a.minute,
    repeatMode := some a.repeat_mode, weekdays := some a.weekdays_mask,
    status := some a.status, label := some a.label,
    music := some a.music_name, snooze_minutes := some a.snooze_minutes,
    max_snooze := some a.max_snooze_count }

/-- Assign an optional record field over a default, mirroring the
`if (auto f = cJSON_GetObjectItem(...)) alarm->x = f->...;` pattern. -/
def fromField {α β : Type} (v : Option α) (set : α → β → β) (b : β) : β :=
  match v with
  | some x => set x b
  | none => b

/-- The per-record body of `AlarmManager::LoadAlarmsFromStorage`
(alarm_manager.cc:559-579): start from the default-constructed
`AlarmItem`, copy each present field (the `uint8_t` mask narrows the
stored integer mod 256), zero the runtime-only fields, and downgrade a
persisted Triggered/Snoozed status to Enabled. -/
def loadAlarmRecord (r : AlarmRecord) : AlarmItem :=
  let a := defaultAlarmItem
  let a := fromField r.id (fun v b => { b with id := v }) a
  let a := fromField r.hour (fun v b => { b with hour := v }) a
  let a := fromField r.minute (fun v b => { b with minute := v }) a
  let a := fromField r.repeatMode (fun v b => { b with repeat_mode := v }) a
  let a := fromField r.weekdays (fun v b => { b with weekdays_mask := v % 256 }) a
  let a := fromField r.status (fun v b => { b with status := v }) a
  let a := fromField r.label (fun v b => { b with label := v }) a
  let a := fromField r.music (fun v b => { b with music_name := v }) a
  let a := fromField r.snooze_minutes (fun v b => { b with snooze_minutes := v }) a
  let a := fromField r.max_snooze (fun v b => { b with max_snooze_count := v }) a
  let a := { a with snooze_count := 0, last_triggered_time := 0,
                    next_snooze_time := 0 }
  if a.status = AlarmStatus.triggered ∨ a.status = AlarmStatus.snoozed then
    { a with status := AlarmStatus.enabled }
  else a

/-- `AlarmManager::LoadAlarmsFromStorage` over the stored slots: an empty
or unparsable slot (`none`) is skipped, every other record is loaded. -/
def LoadAlarms (records : List (Option AlarmRecord)) : List AlarmItem :=
  records.filterMap (fun r => r.map loadAlarmRecord)

/-- The `std::setw(2) << std::setfill('0')` rendering used by
`AlarmManager::FormatTime` (alarm_manager.cc:496). -/
def padTwo (n : Int) : String :=
  if 0 ≤ n ∧ n < 10 then "0" ++ toString n else toString n

/-- `AlarmManager::FormatTime` (alarm_manager.cc:496). -/
def FormatTime (hour minute : Int) : String :=
  padTwo hour ++ ":" ++ padTwo minute

/-- The candidate scan of `AlarmManager::GetNextAlarmInfo`
(alarm_manager.cc:273-296): walk day offsets `off, off+1, ...` while
`fuel` steps remain (the C loop runs offsets 0..6), skip offset 0 when
the alarm time has already passed today and offsets > 0 for one-shot
alarms, and return the time distance of the first offset whose weekday
is active. -/
def candScan (cw : Nat) (cm : Int) (a : AlarmItem) : Nat → Nat → Option Int
  | _, 0 => none
  | off, Nat.succ fuel =>
    if (off = 0 ∧ a.hour * 60 + a.minute ≤ cm) ∨
       (a.repeat_mode = AlarmRepeatMode.once ∧ 0 < off) then
      candScan cw cm a (off + 1) fuel
    else if IsWeekdayActive a ((cw + off) % 7) then
      some (if off = 0 then a.hour * 60 + a.minute - cm
            else (off : Int) * 1440 + (a.hour * 60 + a.minute) - cm)
    else candScan cw cm a (off + 1) fuel

/-- The full inner loop of `GetNextAlarmInfo` for one alarm: day offsets
0..6 from today (`cw` is the current weekday, `cm` the current minute of
day). -/
def candOffset (cw : Nat) (cm : Int) (a : AlarmItem) : Option Int :=
  candScan cw cm a 0 7

/-- One alarm's contribution to the `GetNextAlarmInfo` scan: only
Enabled alarms are considered (alarm_manager.cc:266). -/
def candEnabled (cw : Nat) (cm : Int) (a : AlarmItem) : Option Int :=
  if a.status = AlarmStatus.enabled then candOffset cw cm a else none

/-- The outer loop of `GetNextAlarmInfo` (alarm_manager.cc:265-297):
fold over the stored alarms keeping the strictly smaller distance, so
the first alarm attaining the minimum wins; `i` tracks the stored index
of the alarm the winning pointer refers to.  `min_time_diff` starts at
one week (10080 minutes). -/
def scanNextAux (cw : Nat) (cm : Int) :
    List AlarmItem → Nat → Option (Nat × AlarmItem) → Int →
    Option (Nat × AlarmItem) × Int
  | [], _, best, bestD => (best, bestD)
  | a :: rest, i, best, bestD =>
    match candEnabled cw cm a with
    | some d =>
      if d < bestD then scanNextAux cw cm rest (i + 1) (some (i, a)) d
      else scanNextAux cw cm rest (i + 1) best bestD
    | none => scanNextAux cw cm rest (i + 1) best bestD

/-- The winning alarm (with its stored index) and its distance, or
`none` when no Enabled alarm qualifies within the 10080-minute week. -/
def nextAlarmScan (cw : Nat) (cm : Int) (alarms : List AlarmItem) :
    Option (Nat × AlarmItem) × Int :=
  scanNextAux cw cm alarms 0 none 10080

/-- The result string built by `GetNextAlarmInfo` for the winning alarm
(alarm_manager.cc:304-324): time, relative distance (hours and minutes
inside a day, whole days beyond), and the label when non-empty. -/
def describeNextAlarm (a : AlarmItem) (d : Int) : String :=
  let base := "下个闹钟: " ++ FormatTime a.hour a.minute
  let timing :=
    if d < 1440 then
      let hours := d / 60
      let minutes := d % 60
      if hours > 0 then
        " (" ++ toString hours ++ "小时" ++ toString minutes ++ "分钟后)"
      else " (" ++ toString minutes ++ "分钟后)"
    else " (" ++ toString (d / 1440) ++ "天后)"
  let tail := if a.label = "" then "" else " - " ++ a.label
  base ++ timing ++ tail

/-- `AlarmManager::GetNextAlarmInfo` (alarm_manager.cc:252): the sentinel
string when no alarm qualifies, the description of the winner otherwise. -/
def GetNextAlarmInfo (cw : Nat) (cm : Int) (alarms : List AlarmItem) : String :=
  match nextAlarmScan cw cm alarms with
  | (none, _) => "无活动闹钟"
  | (some p, d) => describeNextAlarm p.2 d

/-- The per-alarm snooze-ceiling invariant of §3 of the design: the used
snooze count never exceeds the per-alarm ceiling. -/
abbrev AlarmInv (a : AlarmItem) : Prop :=
  0 ≤ a.snooze_count ∧ a.snooze_count ≤ a.max_snooze_count

/-- The manager-wide invariant: every stored alarm satisfies `AlarmInv`,
and the clamped process-wide default ceiling is non-negative (so a
freshly added alarm satisfies `AlarmInv` too). -/
abbrev ManagerInv (s : AlarmManagerState) : Prop :=
  (∀ a ∈ s.alarms, AlarmInv a) ∧ 0 ≤ s.default_max_snooze_count

/-- Day offset `off` qualifies for alarm `a` in the `GetNextAlarmInfo`
scan: not skipped as already-passed-today (offset 0) nor as a one-shot
beyond today, and the weekday `(cw + off) % 7` is active for the alarm. -/
abbrev qualifiesAt (cw : Nat) (cm : Int) (a : AlarmItem) (off : Nat) : Prop :=
  ¬(off = 0 ∧ a.hour * 60 + a.minute ≤ cm) ∧
  ¬(a.repeat_mode = AlarmRepeatMode.once ∧ 0 < off) ∧
  IsWeekdayActive a ((cw + off) % 7) = true

/-- The time distance reported for alarm `a` at day offset `off`
(the offset-0 special case of the C code computes the same value). -/
def offsetDistance (cm : Int) (a : AlarmItem) (off : Nat) : Int :=
  (off : Int) * 1440 + (a.hour * 60 + a.minute) - cm

/-- Concrete triggered alarm below the snooze ceiling, for exercising
`SnoozeAlarm`. -/
def w1alarm : AlarmItem :=
  { defaultAlarmItem with
    id := 5, status := AlarmStatus.triggered,
    snooze_count := 1, max_snooze_count := 3,
    repeat_mode := AlarmRepeatMode.daily, weekdays_mask := 127 }

/-- Store holding `w1alarm`. -/
def w1state : AlarmManagerState :=
  { initialManagerState with alarms := [w1alarm] }

/-- Concrete one-shot triggered alarm sitting exactly at the snooze
ceiling. -/
def w1ceilAlarm : AlarmItem :=
  { defaultAlarmItem with
    id := 6, status := AlarmStatus.triggered,
    snooze_count := 3, max_snooze_count := 3,
    repeat_mode := AlarmRepeatMode.once }

/-- Store holding `w1ceilAlarm`. -/
def w1ceilState : AlarmManagerState :=
  { initialManagerState with alarms := [w1ceilAlarm] }

/-- Concrete enabled daily 07:30 alarm that has never fired. -/
def w2alarm : AlarmItem :=
  { defaultAlarmItem with
    id := 1, hour := 7, minute := 30,
    repeat_mode := AlarmRepeatMode.daily, weekdays_mask := 127 }

/-- `w2alarm` but with a 30-second-old trigger timestamp, the state a
fire followed by a stop inside the same minute leaves behind. -/
def c2guardAlarm : AlarmItem :=
  { w2alarm with last_triggered_time := 100 }

/-- Concrete triggered alarm for the `EnableAlarm` counterexample. -/
def c4alarm : AlarmItem :=
  { defaultAlarmItem with
    id := 9, status := AlarmStatus.triggered,
    repeat_mode := AlarmRepeatMode.daily, weekdays_mask := 127 }

/-- Store holding `c4alarm`. -/
def c4state : AlarmManagerState :=
  { initialManagerState with alarms := [c4alarm] }

/-- Concrete custom-mask alarm stored for exercising `ModifyAlarm`. -/
def w5alarm : AlarmItem :=
  { defaultAlarmItem with
    id := 2, hour := 9, minute := 0,
    repeat_mode := AlarmRepeatMode.custom, weekdays_mask := 37 }

/-- Store holding `w5alarm`. -/
def w5state : AlarmManagerState :=
  { initialManagerState with alarms := [w5alarm] }

/-- Concrete snoozed alarm whose snooze deadline is about to expire. -/
def w9alarm : AlarmItem :=
  { defaultAlarmItem with
    id := 7, status := AlarmStatus.snoozed,
    snooze_count := 2, max_snooze_count := 3, next_snooze_time := 900,
    last_triggered_time := 600, repeat_mode := AlarmRepeatMode.daily,
    weekdays_mask := 127, hour := 7, minute := 30 }

/-- The empty label the MCP layer passes when the user gives none. -/
def noLabel : String := ""

/-- The empty music name standing for the default ringtone. -/
def noMusic : String := ""

theorem findAlarm_id {l : List AlarmItem} {i : Int} {a : AlarmItem}
    (h : findAlarm l i = some a) : a.id = i := by
  induction l with
  | nil => simp [findAlarm] at h
  | cons b rest ih =>
    by_cases hb : b.id = i
    · simp [findAlarm, hb] at h
      rw [← h]; exact hb
    · simp [findAlarm, hb] at h
      exact ih h

theorem findAlarm_mem {l : List AlarmItem} {i : Int} {a : AlarmItem}
    (h : findAlarm l i = some a) : a ∈ l := by
  induction l with
  | nil => simp [findAlarm] at h
  | cons b rest ih =>
    by_cases hb : b.id = i
    · simp [findAlarm, hb] at h
      simp [h]
    · simp [findAlarm, hb] at h
      exact List.mem_cons_of_mem b (ih h)

theorem findAlarm_updateAlarm {l : List AlarmItem} {i : Int} {a : AlarmItem}
    (f : AlarmItem → AlarmItem) (h : findAlarm l i = some a)
    (hid : (f a).id = a.id) : findAlarm (updateAlarm f l i) i = some (f a) := by
  induction l with
  | nil => simp [findAlarm] at h
  | cons b rest ih =>
    by_cases hb : b.id = i
    · simp [findAlarm, hb] at h
      subst h
      simp [updateAlarm, findAlarm, hb, hid.trans hb]
    · simp [findAlarm, hb] at h
      simp [updateAlarm, findAlarm, hb, ih h]

theorem mem_updateAlarm {l : List AlarmItem} {i : Int} {b : AlarmItem}
    (f : AlarmItem → AlarmItem) (h : b ∈ updateAlarm f l i) :
    b ∈ l ∨ ∃ a ∈ l, b = f a := by
  induction l with
  | nil => simp [updateAlarm] at h
  | cons c rest ih =>
    by_cases hc : c.id = i
    · simp [updateAlarm, hc] at h
      rcases h with h | h
      · exact Or.inr ⟨c, List.mem_cons_self c rest, h⟩
      · exact Or.inl (List.mem_cons_of_mem c h)
    · simp [updateAlarm, hc] at h
      rcases h with h | h
      · exact Or.inl (by simp [h])
      · rcases ih h with h2 | ⟨a, ha, hfa⟩
        · exact Or.inl (List.mem_cons_of_mem c h2)
        · exact Or.inr ⟨a, List.mem_cons_of_mem c ha, hfa⟩

theorem mem_stopAllAux {l : List AlarmItem} {b : AlarmItem}
    (h : b ∈ (stopAllAux l).1) : ∃ a ∈ l, b = a ∨ b = stoppedAlarm a := by
  induction l with
  | nil => simp [stopAllAux] at h
  | cons c rest ih =>
    by_cases hc : c.status = AlarmStatus.triggered ∨ c.status = AlarmStatus.snoozed
    · simp [stopAllAux, hc] at h
      rcases h with h | h
      · exact ⟨c, List.mem_cons_self c rest, Or.inr h⟩
      · rcases ih h with ⟨a, ha, hba⟩
        exact ⟨a, List.mem_cons_of_mem c ha, hba⟩
    · simp [stopAllAux, hc] at h
      rcases h with h | h
      · exact ⟨c, List.mem_cons_self c rest, Or.inl h⟩
      · rcases ih h with ⟨a, ha, hba⟩
        exact ⟨a, List.mem_cons_of_mem c ha, hba⟩

theorem mem_CheckAlarms {now_sec now_min : Int} {wd : Nat}
    {l : List AlarmItem} {b : AlarmItem}
    (h : b ∈ (CheckAlarms now_sec now_min wd l).1) :
    ∃ a ∈ l, b = (checkAlarmItem now_sec now_min wd a).1 := by
  induction l with
  | nil => simp [CheckAlarms] at h
  | cons c rest ih =>
    simp [CheckAlarms] at h
    rcases h with h | h
    · exact ⟨c, List.mem_cons_self c rest, h⟩
    · rcases ih h with ⟨a, ha, hba⟩
      exact ⟨a, List.mem_cons_of_mem c ha, hba⟩

/-- C7: for every hour outside [0,23] or minute outside [0,59], `AddAlarm`
and `ModifyAlarm` return the failure result (-1 / false) and leave the
whole manager state — alarm list and id counter included — unchanged. -/
theorem add_modify_invalid_time_C7 (s : AlarmManagerState)
    (alarm_id hour minute : Int) (mode : AlarmRepeatMode) (lb mu : String)
    (hv : hour < 0 ∨ hour > 23 ∨ minute < 0 ∨ minute > 59) :
    AddAlarm s hour minute mode lb mu = (-1, s) ∧
    ModifyAlarm s alarm_id hour minute mode lb mu = (false, s) := by
  constructor
  · simp only [AddAlarm, if_pos hv]
  · simp only [ModifyAlarm, if_pos hv]

/-- Witness for C7 at hour 24. -/
theorem add_modify_invalid_time_C7_witness :
    ((24:Int) < 0 ∨ (24:Int) > 23 ∨ (0:Int) < 0 ∨ (0:Int) > 59) ∧
    AddAlarm initialManagerState 24 0 AlarmRepeatMode.daily noLabel noMusic =
      (-1, initialManagerState) ∧
    ModifyAlarm initialManagerState 1 24 0 AlarmRepeatMode.daily noLabel noMusic =
      (false, initialManagerState) := by
  have h := add_modify_invalid_time_C7 initialManagerState 1 24 0
    AlarmRepeatMode.daily noLabel noMusic (by norm_num)
  exact ⟨by norm_num, h.1, h.2⟩

/-- C6: a record loaded from storage yields an alarm whose persisted
fields are taken from the record, with a persisted Triggered/Snoozed
status downgraded to Enabled and the three runtime-only fields zeroed
(the stored weekday mask narrows into the `uint8_t` field; the
hypothesis `w < 256` says it round-trips unchanged). -/
theorem load_downgrade_C6 (i h m : Int) (mo : AlarmRepeatMode) (w : Nat)
    (st : AlarmStatus) (lb mu : String) (sm mx : Int) (hw : w < 256) :
    loadAlarmRecord
      { id := some i, hour := some h, minute := some m,
        repeatMode := some mo, weekdays := some w, status := some st,
        label := some lb, music := some mu, snooze_minutes := some sm,
        max_snooze := some mx } =
    { id := i, hour := h, minute := m, repeat_mode := mo,
      weekdays_mask := w,
      status := if st = AlarmStatus.triggered ∨ st = AlarmStatus.snoozed
                then AlarmStatus.enabled else st,
      label := lb, music_name := mu, snooze_count := 0,
      max_snooze_count := mx, snooze_minutes := sm,
      last_triggered_time := 0, next_snooze_time := 0 } := by
  by_cases hst : st = AlarmStatus.triggered ∨ st = AlarmStatus.snoozed
  · simp [loadAlarmRecord, fromField, Nat.mod_eq_of_lt hw, hst]
  · simp [loadAlarmRecord, fromField, Nat.mod_eq_of_lt hw, hst]

/-- Witness for C6 on a concrete snoozed record. -/
theorem load_downgrade_C6_witness :
    (65:Nat) < 256 ∧
    loadAlarmRecord
      { id := some 4, hour := some 7, minute := some 30,
        repeatMode := some AlarmRepeatMode.weekends, weekdays := some 65,
        status := some AlarmStatus.snoozed, label := some noLabel,
        music := some noMusic, snooze_minutes := some 5,
        max_snooze := some 3 } =
    { id := 4, hour := 7, minute := 30,
      repeat_mode := AlarmRepeatMode.weekends, weekdays_mask := 65,
      status := AlarmStatus.enabled, label := noLabel,
      music_name := noMusic, snooze_count := 0, max_snooze_count := 3,
      snooze_minutes := 5, last_triggered_time := 0,
      next_snooze_time := 0 } := by
  have h := load_downgrade_C6 4 7 30 AlarmRepeatMode.weekends 65
    AlarmStatus.snoozed noLabel noMusic 5 3 (by norm_num)
  refine ⟨by norm_num, ?_⟩
  rw [h]
  simp

/-- C9: when `CheckAlarms` processes a Snoozed alarm whose snooze
deadline has been reached, it only flips the status to Triggered and
zeroes `next_snooze_time`, emits one `OnTriggered`, and leaves every
other field — in particular `snooze_count` and `last_triggered_time` —
unchanged, skipping all remaining checks for that alarm in that tick. -/
theorem snooze_expiry_frame_C9 (a : AlarmItem) (now_sec now_min : Int)
    (wd : Nat) (hst : a.status = AlarmStatus.snoozed)
    (hd : now_sec ≥ a.next_snooze_time) :
    checkAlarmItem now_sec now_min wd a =
      ({ a with status := AlarmStatus.triggered, next_snooze_time := 0 },
       [AlarmEvent.onTriggered
          { a with status := AlarmStatus.triggered, next_snooze_time := 0 }]) ∧
    ({ a with status := AlarmStatus.triggered,
              next_snooze_time := 0 }).snooze_count = a.snooze_count ∧
    ({ a with status := AlarmStatus.triggered,
              next_snooze_time := 0 }).last_triggered_time =
      a.last_triggered_time ∧
    ({ a with status := AlarmStatus.triggered,
              next_snooze_time := 0 }).id = a.id ∧
    ({ a with status := AlarmStatus.triggered,
              next_snooze_time := 0 }).hour = a.hour ∧
    ({ a with status := AlarmStatus.triggered,
              next_snooze_time := 0 }).minute = a.minute ∧
    ({ a with status := AlarmStatus.triggered,
              next_snooze_time := 0 }).repeat_mode = a.repeat_mode ∧
    ({ a with status := AlarmStatus.triggered,
              next_snooze_time := 0 }).weekdays_mask = a.weekdays_mask ∧
    ({ a with status := AlarmStatus.triggered,
              next_snooze_time := 0 }).max_snooze_count =
      a.max_snooze_count ∧
    ({ a with status := AlarmStatus.triggered,
              next_snooze_time := 0 }).snooze_minutes = a.snooze_minutes := by
  refine ⟨?_, rfl, rfl, rfl, rfl, rfl, rfl, rfl, rfl, rfl⟩
  simp [checkAlarmItem, hst, hd]

/-- Witness for C9 on a concrete snoozed alarm at its deadline. -/
theorem snooze_expiry_frame_C9_witness :
    w9alarm.status = AlarmStatus.snoozed ∧ (950:Int) ≥ w9alarm.next_snooze_time ∧
    checkAlarmItem 950 450 2 w9alarm =
      ({ w9alarm with status := AlarmStatus.triggered, next_snooze_time := 0 },
       [AlarmEvent.onTriggered
          { w9alarm with status := AlarmStatus.triggered,
                         next_snooze_time := 0 }]) ∧
    ({ w9alarm with status := AlarmStatus.triggered,
                    next_snooze_time := 0 }).snooze_count =
      w9alarm.snooze_count := by
  have h := snooze_expiry_frame_C9 w9alarm 950 450 2 (by decide) (by decide)
  exact ⟨by decide, by decide, h.1, h.2.1⟩

/-- C10: an alarm created through `AddAlarm` with repeat mode Custom gets
weekday mask 0 (the API takes no mask argument), and any Custom alarm
with mask 0 is weekday-inactive on all seven weekdays, so a `CheckAlarms`
tick never moves it to Triggered while it is not Snoozed. -/
theorem custom_mask_zero_C10 (s : AlarmManagerState) (hour minute : Int)
    (lb mu : String)
    (hv : ¬(hour < 0 ∨ hour > 23 ∨ minute < 0 ∨ minute > 59)) :
    (AddAlarm s hour minute AlarmRepeatMode.custom lb mu).2.alarms.getLast? =
      some (madeAlarm s hour minute AlarmRepeatMode.custom lb mu) ∧
    (madeAlarm s hour minute AlarmRepeatMode.custom lb mu).weekdays_mask = 0 ∧
    (madeAlarm s hour minute AlarmRepeatMode.custom lb mu).status =
      AlarmStatus.enabled ∧
    (∀ a : AlarmItem, a.repeat_mode = AlarmRepeatMode.custom →
       a.weekdays_mask = 0 →
       (∀ w : Nat, IsWeekdayActive a w = false) ∧
       (∀ w : Nat, ShouldTriggerToday a w = false) ∧
       (a.status ≠ AlarmStatus.snoozed →
          ∀ now_sec now_min : Int, ∀ wd : Nat,
            checkAlarmItem now_sec now_min wd a = (a, []))) := by
  refine ⟨?_, rfl, rfl, ?_⟩
  · simp only [AddAlarm, if_neg hv]
    exact List.getLast?_concat _
  · intro a hmode hmask
    have hact : ∀ w : Nat, IsWeekdayActive a w = false := by
      intro w
      simp [IsWeekdayActive, hmode, hmask]
    have hstt : ∀ w : Nat, ShouldTriggerToday a w = false := by
      intro w
      simp [ShouldTriggerToday, hmode, hact w]
    refine ⟨hact, hstt, ?_⟩
    intro hsn now_sec now_min wd
    have h1 : ¬(a.status = AlarmStatus.snoozed ∧ now_sec ≥ a.next_snooze_time) :=
      fun hc => hsn hc.1
    by_cases h2 : a.status ≠ AlarmStatus.enabled
    · simp [checkAlarmItem, h1, h2]
    · by_cases h3 : a.hour * 60 + a.minute ≠ now_min
      · simp [checkAlarmItem, h1, h2, h3]
      · simp [checkAlarmItem, h1, h2, h3, hstt wd]

/-- Witness for C10: a 09:00 Custom alarm is added with mask 0 and a tick
at the matching minute leaves it untouched. -/
theorem custom_mask_zero_C10_witness :
    ¬((9:Int) < 0 ∨ (9:Int) > 23 ∨ (0:Int) < 0 ∨ (0:Int) > 59) ∧
    (AddAlarm initialManagerState 9 0 AlarmRepeatMode.custom noLabel
        noMusic).2.alarms.getLast? =
      some (madeAlarm initialManagerState 9 0 AlarmRepeatMode.custom noLabel
        noMusic) ∧
    IsWeekdayActive
      (madeAlarm initialManagerState 9 0 AlarmRepeatMode.custom noLabel
        noMusic) 3 = false ∧
    checkAlarmItem 1000 540 3
      (madeAlarm initialManagerState 9 0 AlarmRepeatMode.custom noLabel
        noMusic) =
      (madeAlarm initialManagerState 9 0 AlarmRepeatMode.custom noLabel
        noMusic, []) := by
  have h := custom_mask_zero_C10 initialManagerState 9 0 noLabel noMusic
    (by norm_num)
  have h4 := h.2.2.2
    (madeAlarm initialManagerState 9 0 AlarmRepeatMode.custom noLabel noMusic)
    (by decide) (by decide)
  exact ⟨by norm_num, h.1, h4.1 3, h4.2.2 (by decide) 1000 540 3⟩

theorem modifiedAlarm_id (hour minute : Int) (mode : AlarmRepeatMode)
    (lb mu : String) (a : AlarmItem) :
    (modifiedAlarm hour minute mode lb mu a).id = a.id := by
  cases mode <;> rfl

/-- C5: with a valid time, `AddAlarm` and `ModifyAlarm` derive the
weekday mask from the repeat mode — Daily sets all 7 bits, Weekdays sets
Monday–Friday, Weekends sets Saturday and Sunday — while Custom is never
overwritten by the repeat-mode switch: `ModifyAlarm` keeps the alarm's
existing mask, and `AddAlarm` (which has no mask argument) keeps the
default-constructed mask 0. -/
theorem mask_derivation_C5 (s : AlarmManagerState)
    (alarm_id hour minute : Int) (lb mu : String)
    (hv : ¬(hour < 0 ∨ hour > 23 ∨ minute < 0 ∨ minute > 59)) :
    (∀ mode, (AddAlarm s hour minute mode lb mu).2.alarms.getLast? =
       some (madeAlarm s hour minute mode lb mu)) ∧
    (madeAlarm s hour minute AlarmRepeatMode.daily lb mu).weekdays_mask =
      0b1111111 ∧
    (madeAlarm s hour minute AlarmRepeatMode.weekdays lb mu).weekdays_mask =
      0b0111110 ∧
    (madeAlarm s hour minute AlarmRepeatMode.weekends lb mu).weekdays_mask =
      0b1000001 ∧
    (madeAlarm s hour minute AlarmRepeatMode.custom lb mu).weekdays_mask = 0 ∧
    (∀ mode a, findAlarm s.alarms alarm_id = some a →
       findAlarm (ModifyAlarm s alarm_id hour minute mode lb mu).2.alarms
           alarm_id =
         some (modifiedAlarm hour minute mode lb mu a)) ∧
    (∀ a, (modifiedAlarm hour minute AlarmRepeatMode.daily lb mu
        a).weekdays_mask = 0b1111111) ∧
    (∀ a, (modifiedAlarm hour minute AlarmRepeatMode.weekdays lb mu
        a).weekdays_mask = 0b0111110) ∧
    (∀ a, (modifiedAlarm hour minute AlarmRepeatMode.weekends lb mu
        a).weekdays_mask = 0b1000001) ∧
    (∀ a, (modifiedAlarm hour minute AlarmRepeatMode.custom lb mu
        a).weekdays_mask = a.weekdays_mask) := by
  refine ⟨?_, rfl, rfl, rfl, rfl, ?_, fun a => rfl, fun a => rfl,
    fun a => rfl, fun a => rfl⟩
  · intro mode
    simp only [AddAlarm, if_neg hv]
    exact List.getLast?_concat _
  · intro mode a hfind
    simp only [ModifyAlarm, if_neg hv, hfind]
    exact findAlarm_updateAlarm _ hfind (modifiedAlarm_id _ _ _ _ _ _)

/-- Witness for C5: modifying the stored Custom alarm keeps its mask 37,
and adding a Weekdays alarm derives mask 62. -/
theorem mask_derivation_C5_witness :
    ¬((8:Int) < 0 ∨ (8:Int) > 23 ∨ (15:Int) < 0 ∨ (15:Int) > 59) ∧
    findAlarm w5state.alarms 2 = some w5alarm ∧
    (AddAlarm w5state 8 15 AlarmRepeatMode.weekdays noLabel
        noMusic).2.alarms.getLast? =
      some (madeAlarm w5state 8 15 AlarmRepeatMode.weekdays noLabel noMusic) ∧
    (madeAlarm w5state 8 15 AlarmRepeatMode.weekdays noLabel
        noMusic).weekdays_mask = 62 ∧
    findAlarm (ModifyAlarm w5state 2 8 15 AlarmRepeatMode.custom noLabel
        noMusic).2.alarms 2 =
      some (modifiedAlarm 8 15 AlarmRepeatMode.custom noLabel noMusic
        w5alarm) ∧
    (modifiedAlarm 8 15 AlarmRepeatMode.custom noLabel noMusic
        w5alarm).weekdays_mask = w5alarm.weekdays_mask := by
  have h := mask_derivation_C5 w5state 2 8 15 noLabel noMusic (by norm_num)
  exact ⟨by norm_num, by decide, h.1 AlarmRepeatMode.weekdays, h.2.2.1,
    h.2.2.2.2.2.1 AlarmRepeatMode.custom w5alarm (by decide),
    h.2.2.2.2.2.2.2.2.2 w5alarm⟩

/-- Counterexample to C4 as stated: `EnableAlarm` does touch a Triggered
alarm — on the store holding the Triggered alarm `c4alarm`,
`EnableAlarm(9, false)` overwrites its status to Disabled. -/
theorem enable_touches_triggered_C4_counterexample :
    c4alarm.status = AlarmStatus.triggered ∧
    (EnableAlarm c4state 9 false).1 = true ∧
    findAlarm (EnableAlarm c4state 9 false).2.alarms 9 =
      some { c4alarm with status := AlarmStatus.disabled } := by
  decide

/-- C4 (amended): `EnableAlarm(id, enabled)` sets the status of the first
alarm with the given id to Enabled or Disabled according to the flag,
regardless of its current status (a Triggered or Snoozed alarm is
overwritten too); it returns true when the id is found and false — with
the state unchanged — otherwise. -/
theorem enable_sets_status_C4 (s : AlarmManagerState) (alarm_id : Int)
    (b : Bool) :
    (∀ a, findAlarm s.alarms alarm_id = some a →
       (EnableAlarm s alarm_id b).1 = true ∧
       findAlarm (EnableAlarm s alarm_id b).2.alarms alarm_id =
         some { a with status := if b then AlarmStatus.enabled
                                 else AlarmStatus.disabled }) ∧
    (findAlarm s.alarms alarm_id = none →
       EnableAlarm s alarm_id b = (false, s)) := by
  constructor
  · intro a hfind
    constructor
    · simp [EnableAlarm, hfind]
    · simp only [EnableAlarm, hfind]
      exact findAlarm_updateAlarm _ hfind rfl
  · intro hnone
    simp [EnableAlarm, hnone]

/-- Witness for C4 (amended): disabling the Triggered alarm `c4alarm`. -/
theorem enable_sets_status_C4_witness :
    findAlarm c4state.alarms 9 = some c4alarm ∧
    (EnableAlarm c4state 9 false).1 = true ∧
    findAlarm (EnableAlarm c4state 9 false).2.alarms 9 =
      some { c4alarm with status := AlarmStatus.disabled } ∧
    findAlarm c4state.alarms 11 = none ∧
    EnableAlarm c4state 11 false = (false, c4state) := by
  have h := enable_sets_status_C4 c4state 9 false
  have h1 := h.1 c4alarm (by decide)
  have h2 := (enable_sets_status_C4 c4state 11 false).2 (by decide)
  exact ⟨by decide, h1.1, h1.2, by decide, h2⟩

/-- C1: on a Triggered alarm, `SnoozeAlarm` below the ceiling increments
`snooze_count`, sets status Snoozed and the snooze deadline
`now + snooze_minutes*60`, emits `OnSnoozed` and returns true; at the
ceiling it returns false and the alarm ends Disabled (Once) or Enabled
(otherwise) with `snooze_count` and `next_snooze_time` reset to 0. -/
theorem snooze_transition_C1 (s : AlarmManagerState)
    (alarm_id now_sec : Int) (a : AlarmItem)
    (hfind : findAlarm s.alarms alarm_id = some a)
    (hst : a.status = AlarmStatus.triggered) :
    (a.snooze_count < a.max_snooze_count →
       (SnoozeAlarm s alarm_id now_sec).1 = true ∧
       (SnoozeAlarm s alarm_id now_sec).2.2 =
         [AlarmEvent.onSnoozed (snoozedAlarm now_sec a)] ∧
       findAlarm (SnoozeAlarm s alarm_id now_sec).2.1.alarms alarm_id =
         some (snoozedAlarm now_sec a) ∧
       (snoozedAlarm now_sec a).status = AlarmStatus.snoozed ∧
       (snoozedAlarm now_sec a).snooze_count = a.snooze_count + 1 ∧
       (snoozedAlarm now_sec a).next_snooze_time =
         now_sec + a.snooze_minutes * 60) ∧
    (¬ a.snooze_count < a.max_snooze_count →
       (SnoozeAlarm s alarm_id now_sec).1 = false ∧
       findAlarm (SnoozeAlarm s alarm_id now_sec).2.1.alarms alarm_id =
         some (stoppedAlarm a) ∧
       (stoppedAlarm a).status =
         (if a.repeat_mode = AlarmRepeatMode.once then AlarmStatus.disabled
          else AlarmStatus.enabled) ∧
       (stoppedAlarm a).snooze_count = 0 ∧
       (stoppedAlarm a).next_snooze_time = 0) := by
  constructor
  · intro hlt
    refine ⟨?_, ?_, ?_, rfl, rfl, rfl⟩
    · simp [SnoozeAlarm, hfind, hst, hlt]
    · simp [SnoozeAlarm, hfind, hst, hlt]
    · have e : (SnoozeAlarm s alarm_id now_sec).2.1 =
          { s with alarms :=
              updateAlarm (fun _ => snoozedAlarm now_sec a) s.alarms alarm_id } := by
        simp [SnoozeAlarm, hfind, hst, hlt]
      rw [e]
      exact findAlarm_updateAlarm _ hfind rfl
  · intro hge
    refine ⟨?_, ?_, rfl, rfl, rfl⟩
    · simp [SnoozeAlarm, hfind, hst, hge]
    · have e : (SnoozeAlarm s alarm_id now_sec).2.1 =
          { s with alarms :=
              updateAlarm (fun _ => stoppedAlarm a) s.alarms alarm_id } := by
        simp [SnoozeAlarm, StopAlarm, hfind, hst, hge]
      rw [e]
      exact findAlarm_updateAlarm _ hfind rfl

/-- Witness for C1: both the below-ceiling snooze (on `w1alarm`, count
1 of 3) and the at-ceiling auto-stop (on the one-shot `w1ceilAlarm`,
count 3 of 3). -/
theorem snooze_transition_C1_witness :
    findAlarm w1state.alarms 5 = some w1alarm ∧
    w1alarm.status = AlarmStatus.triggered ∧
    w1alarm.snooze_count < w1alarm.max_snooze_count ∧
    (SnoozeAlarm w1state 5 1000).1 = true ∧
    findAlarm (SnoozeAlarm w1state 5 1000).2.1.alarms 5 =
      some (snoozedAlarm 1000 w1alarm) ∧
    (snoozedAlarm 1000 w1alarm).next_snooze_time = 1300 ∧
    ¬ w1ceilAlarm.snooze_count < w1ceilAlarm.max_snooze_count ∧
    (SnoozeAlarm w1ceilState 6 1000).1 = false ∧
    findAlarm (SnoozeAlarm w1ceilState 6 1000).2.1.alarms 6 =
      some (stoppedAlarm w1ceilAlarm) ∧
    (stoppedAlarm w1ceilAlarm).status = AlarmStatus.disabled := by
  have h := snooze_transition_C1 w1state 5 1000 w1alarm (by decide) (by decide)
  have h1 := h.1 (by decide)
  have g := snooze_transition_C1 w1ceilState 6 1000 w1ceilAlarm (by decide)
    (by decide)
  have g2 := g.2 (by decide)
  exact ⟨by decide, by decide, by decide, h1.1, h1.2.2.1, by decide,
    by decide, g2.1, g2.2.1, by decide⟩

/-- Counterexample to C2 as stated: `c2guardAlarm` is Enabled, its time
07:30 matches the current minute 450 on an active weekday, yet — because
its `last_triggered_time` (100) is less than 60 seconds before the first
call (a fire followed by a stop inside the same minute leaves exactly
this state) — two `CheckAlarms` calls at monotonic seconds 130 and 150
emit no `OnTriggered` at all and the alarm never becomes Triggered. -/
theorem refire_guard_C2_counterexample :
    c2guardAlarm.status = AlarmStatus.enabled ∧
    c2guardAlarm.hour * 60 + c2guardAlarm.minute = 450 ∧
    ShouldTriggerToday c2guardAlarm 2 = true ∧
    (130:Int) ≤ 150 ∧ (150:Int) - 130 < 60 ∧
    (CheckAlarms 130 450 2 [c2guardAlarm]).2 = [] ∧
    (CheckAlarms 130 450 2 [c2guardAlarm]).1 = [c2guardAlarm] ∧
    (CheckAlarms 150 450 2 (CheckAlarms 130 450 2 [c2guardAlarm]).1).2 = [] := by
  decide

/-- C2 (amended): for an Enabled alarm at its trigger minute on an
active weekday whose re-fire guard is clear at the first call
(`last_triggered_time` is 0 or at least 60 seconds old), two
`CheckAlarms` calls within the same 60-second window produce exactly one
`OnTriggered`: the first transitions it to Triggered, stamps
`last_triggered_time` with the monotonic now, zeroes `snooze_count` and
emits the event; the second call emits nothing for it. -/
theorem refire_guard_C2 (a : AlarmItem) (t1 t2 now_min : Int) (wd : Nat)
    (hst : a.status = AlarmStatus.enabled)
    (htime : a.hour * 60 + a.minute = now_min)
    (hwd : ShouldTriggerToday a wd = true)
    (hguard : a.last_triggered_time = 0 ∨ t1 - a.last_triggered_time ≥ 60)
    (hwin : t1 ≤ t2 ∧ t2 - t1 < 60) :
    CheckAlarms t1 now_min wd [a] =
      ([{ a with status := AlarmStatus.triggered, last_triggered_time := t1,
                 snooze_count := 0 }],
       [AlarmEvent.onTriggered
          { a with status := AlarmStatus.triggered, last_triggered_time := t1,
                   snooze_count := 0 }]) ∧
    CheckAlarms t2 now_min wd (CheckAlarms t1 now_min wd [a]).1 =
      ([{ a with status := AlarmStatus.triggered, last_triggered_time := t1,
                 snooze_count := 0 }], []) ∧
    ({ a with status := AlarmStatus.triggered, last_triggered_time := t1,
              snooze_count := 0 }).status = AlarmStatus.triggered ∧
    ({ a with status := AlarmStatus.triggered, last_triggered_time := t1,
              snooze_count := 0 }).last_triggered_time = t1 ∧
    ({ a with status := AlarmStatus.triggered, last_triggered_time := t1,
              snooze_count := 0 }).snooze_count = 0 := by
  have h5 : ¬(a.last_triggered_time > 0 ∧ t1 - a.last_triggered_time < 60) := by
    rcases hguard with h | h
    · intro hc
      rw [h] at hc
      exact absurd hc.1 (by norm_num)
    · intro hc
      omega
  have e1 : checkAlarmItem t1 now_min wd a =
      ({ a with status := AlarmStatus.triggered, last_triggered_time := t1,
                snooze_count := 0 },
       [AlarmEvent.onTriggered
          { a with status := AlarmStatus.triggered, last_triggered_time := t1,
                   snooze_count := 0 }]) := by
    simp [checkAlarmItem, hst, htime, hwd, h5]
  have e2 : checkAlarmItem t2 now_min wd
      { a with status := AlarmStatus.triggered, last_triggered_time := t1,
               snooze_count := 0 } =
      ({ a with status := AlarmStatus.triggered, last_triggered_time := t1,
                snooze_count := 0 }, []) := by
    simp [checkAlarmItem]
  refine ⟨?_, ?_, rfl, rfl, rfl⟩
  · simp [CheckAlarms, e1]
  · simp [CheckAlarms, e1, e2]

/-- Witness for C2 (amended): the never-fired daily alarm `w2alarm`
at 07:30 with two ticks 30 seconds apart. -/
theorem refire_guard_C2_witness :
    w2alarm.status = AlarmStatus.enabled ∧
    w2alarm.hour * 60 + w2alarm.minute = 450 ∧
    ShouldTriggerToday w2alarm 2 = true ∧
    (w2alarm.last_triggered_time = 0 ∨
      (1000:Int) - w2alarm.last_triggered_time ≥ 60) ∧
    ((1000:Int) ≤ 1030 ∧ (1030:Int) - 1000 < 60) ∧
    (CheckAlarms 1000 450 2 [w2alarm]).2 =
      [AlarmEvent.onTriggered
        { w2alarm with status := AlarmStatus.triggered,
                       last_triggered_time := 1000, snooze_count := 0 }] ∧
    (CheckAlarms 1030 450 2 (CheckAlarms 1000 450 2 [w2alarm]).1).2 = [] := by
  have h := refire_guard_C2 w2alarm 1000 1030 450 2 (by decide) (by decide)
    (by decide) (Or.inl (by decide)) (by norm_num)
  refine ⟨by decide, by decide, by decide, Or.inl (by decide), by norm_num,
    ?_, ?_⟩
  · rw [h.1]
  · rw [h.2.1]

theorem alarmInv_stoppedAlarm {a : AlarmItem} (h : AlarmInv a) :
    AlarmInv (stoppedAlarm a) :=
  ⟨le_refl 0, h.1.trans h.2⟩

theorem alarmInv_snoozedAlarm (t : Int) {a : AlarmItem}
    (h0 : 0 ≤ a.snooze_count) (hlt : a.snooze_count < a.max_snooze_count) :
    AlarmInv (snoozedAlarm t a) := by
  refine ⟨?_, ?_⟩ <;> simp only [snoozedAlarm] <;> omega

theorem alarmInv_madeAlarm (s : AlarmManagerState) (hour minute : Int)
    (mode : AlarmRepeatMode) (lb mu : String)
    (hd : 0 ≤ s.default_max_snooze_count) :
    AlarmInv (madeAlarm s hour minute mode lb mu) :=
  ⟨le_refl 0, hd⟩

theorem alarmInv_modifiedAlarm (hour minute : Int) (mode : AlarmRepeatMode)
    (lb mu : String) {a : AlarmItem} (h : AlarmInv a) :
    AlarmInv (modifiedAlarm hour minute mode lb mu a) := by
  cases mode <;> exact h

theorem alarmInv_checkAlarmItem (now_sec now_min : Int) (wd : Nat)
    {a : AlarmItem} (h : AlarmInv a) :
    AlarmInv (checkAlarmItem now_sec now_min wd a).1 := by
  obtain ⟨h1, h2⟩ := h
  unfold checkAlarmItem
  split_ifs <;> refine ⟨?_, ?_⟩ <;> simp <;> omega

theorem alarmInv_load_serialize {a : AlarmItem} (h : AlarmInv a) :
    AlarmInv (loadAlarmRecord (serializeAlarm a)) := by
  have h0 : 0 ≤ a.max_snooze_count := h.1.trans h.2
  by_cases hst : a.status = AlarmStatus.triggered ∨ a.status = AlarmStatus.snoozed
  · refine ⟨?_, ?_⟩ <;>
      simp [loadAlarmRecord, serializeAlarm, fromField, hst] <;> omega
  · refine ⟨?_, ?_⟩ <;>
      simp [loadAlarmRecord, serializeAlarm, fromField, hst] <;> omega

theorem managerInv_updateAlarm {s : AlarmManagerState} (hInv : ManagerInv s)
    (f : AlarmItem → AlarmItem) (i : Int)
    (hf : ∀ a ∈ s.alarms, AlarmInv (f a)) :
    ManagerInv { s with alarms := updateAlarm f s.alarms i } := by
  refine ⟨?_, hInv.2⟩
  intro b hb
  rcases mem_updateAlarm f hb with h | ⟨a, ha, hba⟩
  · exact hInv.1 b h
  · rw [hba]
    exact hf a ha

/-- C8: the snooze-ceiling invariant `snooze_count ≤ max_snooze_count`
(together with `snooze_count ≥ 0`) holds initially and is preserved by
every public operation — Add, Modify, Enable, Snooze, Stop, StopAll,
CheckAlarms, and reloading the manager's own serialized records — and a
`SnoozeAlarm` on a Triggered alarm already at the ceiling auto-stops the
alarm (leaving it Enabled or Disabled) instead of snoozing. -/
theorem snooze_ceiling_invariant_C8 (s : AlarmManagerState)
    (hInv : ManagerInv s) :
    ManagerInv initialManagerState ∧
    (∀ hour minute mode lb mu,
       ManagerInv (AddAlarm s hour minute mode lb mu).2) ∧
    (∀ alarm_id hour minute mode lb mu,
       ManagerInv (ModifyAlarm s alarm_id hour minute mode lb mu).2) ∧
    (∀ alarm_id b, ManagerInv (EnableAlarm s alarm_id b).2) ∧
    (∀ alarm_id t, ManagerInv (SnoozeAlarm s alarm_id t).2.1) ∧
    (∀ alarm_id, ManagerInv (StopAlarm s alarm_id).2.1) ∧
    ManagerInv (StopAllActiveAlarms s).1 ∧
    (∀ t nm wd,
       ManagerInv { s with alarms := (CheckAlarms t nm wd s.alarms).1 }) ∧
    (∀ a ∈ s.alarms, AlarmInv (loadAlarmRecord (serializeAlarm a))) ∧
    (∀ alarm_id t a, findAlarm s.alarms alarm_id = some a →
       a.status = AlarmStatus.triggered →
       a.max_snooze_count ≤ a.snooze_count →
       (SnoozeAlarm s alarm_id t).1 = false ∧
       findAlarm (SnoozeAlarm s alarm_id t).2.1.alarms alarm_id =
         some (stoppedAlarm a) ∧
       ((stoppedAlarm a).status = AlarmStatus.enabled ∨
        (stoppedAlarm a).status = AlarmStatus.disabled)) := by
  obtain ⟨hAll, hDef⟩ := hInv
  refine ⟨by decide, ?_, ?_, ?_, ?_, ?_, ?_, ?_, ?_, ?_⟩
  · intro hour minute mode lb mu
    by_cases hv : hour < 0 ∨ hour > 23 ∨ minute < 0 ∨ minute > 59
    · simp only [AddAlarm, if_pos hv]
      exact ⟨hAll, hDef⟩
    · simp only [AddAlarm, if_neg hv]
      refine ⟨?_, hDef⟩
      intro b hb
      rcases List.mem_append.mp hb with h | h
      · exact hAll b h
      · rw [List.mem_singleton.mp h]
        exact alarmInv_madeAlarm s hour minute mode lb mu hDef
  · intro alarm_id hour minute mode lb mu
    by_cases hv : hour < 0 ∨ hour > 23 ∨ minute < 0 ∨ minute > 59
    · simp only [ModifyAlarm, if_pos hv]
      exact ⟨hAll, hDef⟩
    · simp only [ModifyAlarm, if_neg hv]
      cases hfind : findAlarm s.alarms alarm_id with
      | none => exact ⟨hAll, hDef⟩
      | some a =>
        exact managerInv_updateAlarm ⟨hAll, hDef⟩ _ _
          (fun b hb => alarmInv_modifiedAlarm hour minute mode lb mu (hAll b hb))
  · intro alarm_id b
    cases hfind : findAlarm s.alarms alarm_id with
    | none => simp only [EnableAlarm, hfind]; exact ⟨hAll, hDef⟩
    | some a =>
      simp only [EnableAlarm, hfind]
      exact managerInv_updateAlarm ⟨hAll, hDef⟩ _ _ (fun c hc => hAll c hc)
  · intro alarm_id t
    cases hfind : findAlarm s.alarms alarm_id with
    | none => simp only [SnoozeAlarm, hfind]; exact ⟨hAll, hDef⟩
    | some a =>
      simp only [SnoozeAlarm, hfind]
      by_cases hst : a.status = AlarmStatus.triggered
      · simp only [if_pos hst]
        by_cases hlt : a.snooze_count < a.max_snooze_count
        · simp only [if_pos hlt]
          exact managerInv_updateAlarm ⟨hAll, hDef⟩ _ _
            (fun c hc => alarmInv_snoozedAlarm t
              (hAll a (findAlarm_mem hfind)).1 hlt)
        · simp only [if_neg hlt, StopAlarm, hfind, if_pos (Or.inl hst)]
          exact managerInv_updateAlarm ⟨hAll, hDef⟩ _ _
            (fun c hc => alarmInv_stoppedAlarm (hAll a (findAlarm_mem hfind)))
      · simp only [if_neg hst]
        exact ⟨hAll, hDef⟩
  · intro alarm_id
    cases hfind : findAlarm s.alarms alarm_id with
    | none => simp only [StopAlarm, hfind]; exact ⟨hAll, hDef⟩
    | some a =>
      simp only [StopAlarm, hfind]
      by_cases hst : a.status = AlarmStatus.triggered ∨
          a.status = AlarmStatus.snoozed
      · simp only [if_pos hst]
        exact managerInv_updateAlarm ⟨hAll, hDef⟩ _ _
          (fun c hc => alarmInv_stoppedAlarm (hAll a (findAlarm_mem hfind)))
      · simp only [if_neg hst]
        exact ⟨hAll, hDef⟩
  · refine ⟨?_, hDef⟩
    intro b hb
    rcases mem_stopAllAux hb with ⟨a, ha, hba | hba⟩
    · rw [hba]; exact hAll a ha
    · rw [hba]; exact alarmInv_stoppedAlarm (hAll a ha)
  · intro t nm wd
    refine ⟨?_, hDef⟩
    intro b hb
    rcases mem_CheckAlarms hb with ⟨a, ha, hba⟩
    rw [hba]
    exact alarmInv_checkAlarmItem t nm wd (hAll a ha)
  · intro a ha
    exact alarmInv_load_serialize (hAll a ha)
  · intro alarm_id t a hfind hst hle
    have hge : ¬ a.snooze_count < a.max_snooze_count := by omega
    refine ⟨?_, ?_, ?_⟩
    · simp [SnoozeAlarm, hfind, hst, hge]
    · have e : (SnoozeAlarm s alarm_id t).2.1 =
          { s with alarms :=
              updateAlarm (fun _ => stoppedAlarm a) s.alarms alarm_id } := by
        simp [SnoozeAlarm, StopAlarm, hfind, hst, hge]
      rw [e]
      exact findAlarm_updateAlarm _ hfind rfl
    · by_cases ho : a.repeat_mode = AlarmRepeatMode.once
      · right; simp [stoppedAlarm, ho]
      · left; simp [stoppedAlarm, ho]

/-- Witness for C8: the invariant holds on the concrete stores `w1state`
and `w1ceilState` and is preserved by a snooze and a tick; the ceiling
alarm auto-stops. -/
theorem snooze_ceiling_invariant_C8_witness :
    ManagerInv w1state ∧
    ManagerInv (SnoozeAlarm w1state 5 1000).2.1 ∧
    ManagerInv { w1state with alarms :=
      (CheckAlarms 1000 450 2 w1state.alarms).1 } ∧
    ManagerInv w1ceilState ∧
    (SnoozeAlarm w1ceilState 6 1000).1 = false := by
  have h := snooze_ceiling_invariant_C8 w1state (by decide)
  have g := snooze_ceiling_invariant_C8 w1ceilState (by decide)
  exact ⟨by decide, h.2.2.2.2.1 5 1000, h.2.2.2.2.2.2.2.1 1000 450 2,
    by decide,
    (g.2.2.2.2.2.2.2.2.2 6 1000 w1ceilAlarm (by decide) (by decide)
      (by decide)).1⟩

theorem firstQual_shift (cw : Nat) (cm : Int) (a : AlarmItem) (off : Nat)
    (hq : ¬ qualifiesAt cw cm a off) (d : Int) :
    (∃ k, off ≤ k ∧ k < 7 ∧ qualifiesAt cw cm a k ∧
       (∀ j, off ≤ j → j < k → ¬ qualifiesAt cw cm a j) ∧
       d = offsetDistance cm a k) ↔
    (∃ k, off + 1 ≤ k ∧ k < 7 ∧ qualifiesAt cw cm a k ∧
       (∀ j, off + 1 ≤ j → j < k → ¬ qualifiesAt cw cm a j) ∧
       d = offsetDistance cm a k) := by
  constructor
  · rintro ⟨k, hk1, hk2, hk3, hk4, hk5⟩
    refine ⟨k, ?_, hk2, hk3, ?_, hk5⟩
    · rcases Nat.eq_or_lt_of_le hk1 with h | h
      · exact absurd hk3 (h ▸ hq)
      · omega
    · intro j hj1 hj2
      exact hk4 j (by omega) hj2
  · rintro ⟨k, hk1, hk2, hk3, hk4, hk5⟩
    refine ⟨k, by omega, hk2, hk3, ?_, hk5⟩
    intro j hj1 hj2
    rcases Nat.eq_or_lt_of_le hj1 with h | h
    · exact h ▸ hq
    · exact hk4 j (by omega) hj2

theorem candScan_spec (cw : Nat) (cm : Int) (a : AlarmItem) :
    ∀ (fuel off : Nat), off + fuel = 7 → ∀ d : Int,
      (candScan cw cm a off fuel = some d ↔
        ∃ k, off ≤ k ∧ k < 7 ∧ qualifiesAt cw cm a k ∧
          (∀ j, off ≤ j → j < k → ¬ qualifiesAt cw cm a j) ∧
          d = offsetDistance cm a k) := by
  intro fuel
  induction fuel with
  | zero =>
    intro off hoff d
    constructor
    · intro h
      simp [candScan] at h
    · rintro ⟨k, hk1, hk2, _⟩
      omega
  | succ fuel ih =>
    intro off hoff d
    have hoff7 : off < 7 := by omega
    have hnext : off + 1 + fuel = 7 := by omega
    by_cases hS : (off = 0 ∧ a.hour * 60 + a.minute ≤ cm) ∨
        (a.repeat_mode = AlarmRepeatMode.once ∧ 0 < off)
    · have hq : ¬ qualifiesAt cw cm a off := by
        intro hc
        rcases hS with h | h
        · exact hc.1 h
        · exact hc.2.1 h
      have e : candScan cw cm a off (fuel + 1) =
          candScan cw cm a (off + 1) fuel := by
        simp [candScan, hS]
      rw [e, ih (off + 1) hnext d]
      exact (firstQual_shift cw cm a off hq d).symm
    · by_cases hA : IsWeekdayActive a ((cw + off) % 7) = true
      · have hq : qualifiesAt cw cm a off := by
          refine ⟨?_, ?_, hA⟩
          · intro hc
            exact hS (Or.inl hc)
          · intro hc
            exact hS (Or.inr hc)
        have hval : candScan cw cm a off (fuel + 1) =
            some (offsetDistance cm a off) := by
          have hc2 : ¬(a.repeat_mode = AlarmRepeatMode.once ∧ 0 < off) :=
            hq.2.1
          by_cases h0 : off = 0
          · subst h0
            have hc1 : ¬(a.hour * 60 + a.minute ≤ cm) :=
              fun hc => hS (Or.inl ⟨rfl, hc⟩)
            have hA0 : IsWeekdayActive a (cw % 7) = true := by
              simpa using hA
            simp [candScan, hc1, hA0, offsetDistance]
          · simp [candScan, hS, hc2, hA, h0, offsetDistance]
        rw [hval]
        constructor
        · intro h
          refine ⟨off, le_refl off, hoff7, hq,
            fun j hj1 hj2 => absurd hj1 (by omega), ?_⟩
          exact (Option.some_inj.mp h).symm
        · rintro ⟨k, hk1, hk2, hk3, hk4, hk5⟩
          have hko : k = off := by
            by_contra hne
            exact (hk4 off (le_refl off) (by omega)) hq
          rw [hko] at hk5
          rw [hk5]
      · have hq : ¬ qualifiesAt cw cm a off := fun hc => hA hc.2.2
        have e : candScan cw cm a off (fuel + 1) =
            candScan cw cm a (off + 1) fuel := by
          simp [candScan, hS, hA]
        rw [e, ih (off + 1) hnext d]
        exact (firstQual_shift cw cm a off hq d).symm

theorem candOffset_spec (cw : Nat) (cm : Int) (a : AlarmItem) (d : Int) :
    candOffset cw cm a = some d ↔
      ∃ k, k < 7 ∧ qualifiesAt cw cm a k ∧
        (∀ j, j < k → ¬ qualifiesAt cw cm a j) ∧
        d = offsetDistance cm a k := by
  rw [candOffset, candScan_spec cw cm a 7 0 (by norm_num) d]
  constructor
  · rintro ⟨k, _, hk2, hk3, hk4, hk5⟩
    exact ⟨k, hk2, hk3, fun j hj => hk4 j (Nat.zero_le j) hj, hk5⟩
  · rintro ⟨k, hk2, hk3, hk4, hk5⟩
    exact ⟨k, Nat.zero_le k, hk2, hk3, fun j _ hj => hk4 j hj, hk5⟩

theorem scanNextAux_spec (cw : Nat) (cm : Int) :
    ∀ (l : List AlarmItem) (i0 : Nat) (best : Option (Nat × AlarmItem))
      (bestD : Int),
      ((∀ (k : Nat) (a : AlarmItem), l[k]? = some a →
          ∀ d, candEnabled cw cm a = some d → bestD ≤ d) ∧
        scanNextAux cw cm l i0 best bestD = (best, bestD)) ∨
      (∃ (k : Nat) (a : AlarmItem) (d : Int),
        l[k]? = some a ∧ candEnabled cw cm a = some d ∧ d < bestD ∧
        (∀ (j : Nat) (b : AlarmItem), j < k → l[j]? = some b →
           ∀ e, candEnabled cw cm b = some e → d < e) ∧
        (∀ (j : Nat) (b : AlarmItem), l[j]? = some b →
           ∀ e, candEnabled cw cm b = some e → d ≤ e) ∧
        scanNextAux cw cm l i0 best bestD = (some (i0 + k, a), d)) := by
  intro l
  induction l with
  | nil =>
    intro i0 best bestD
    left
    constructor
    · intro k a hk
      simp at hk
    · simp [scanNextAux]
  | cons c rest ih =>
    intro i0 best bestD
    cases hc : candEnabled cw cm c with
    | none =>
      have e : scanNextAux cw cm (c :: rest) i0 best bestD =
          scanNextAux cw cm rest (i0 + 1) best bestD := by
        simp [scanNextAux, hc]
      rcases ih (i0 + 1) best bestD with ⟨H, E⟩ |
        ⟨k, a, d, hk, hcand, hlt, hbefore, hall, E⟩
      · left
        refine ⟨?_, e.trans E⟩
        intro k a hk d hd
        cases k with
        | zero =>
          simp at hk
          rw [← hk] at hd
          rw [hc] at hd
          exact absurd hd (by simp)
        | succ k =>
          simp at hk
          exact H k a hk d hd
      · right
        refine ⟨k + 1, a, d, by simpa using hk, hcand, hlt, ?_, ?_, ?_⟩
        · intro j b hj hb e2 he
          cases j with
          | zero =>
            simp at hb
            rw [← hb] at he
            rw [hc] at he
            exact absurd he (by simp)
          | succ j =>
            simp at hb
            exact hbefore j b (by omega) hb e2 he
        · intro j b hb e2 he
          cases j with
          | zero =>
            simp at hb
            rw [← hb] at he
            rw [hc] at he
            exact absurd he (by simp)
          | succ j =>
            simp at hb
            exact hall j b hb e2 he
        · rw [e, E]
          have hi : i0 + 1 + k = i0 + (k + 1) := by omega
          rw [hi]
    | some d0 =>
      by_cases hlt0 : d0 < bestD
      · have e : scanNextAux cw cm (c :: rest) i0 best bestD =
            scanNextAux cw cm rest (i0 + 1) (some (i0, c)) d0 := by
          simp [scanNextAux, hc, hlt0]
        rcases ih (i0 + 1) (some (i0, c)) d0 with ⟨H, E⟩ |
          ⟨k, a, d, hk, hcand, hlt, hbefore, hall, E⟩
        · right
          refine ⟨0, c, d0, by simp, hc, hlt0, ?_, ?_, ?_⟩
          · intro j b hj hb e2 he
            omega
          · intro j b hb e2 he
            cases j with
            | zero =>
              simp at hb
              rw [← hb] at he
              rw [hc] at he
              rw [Option.some_inj.mp he]
            | succ j =>
              simp at hb
              exact H j b hb e2 he
          · rw [e, E]
            have hi : i0 + 0 = i0 := by omega
            rw [hi]
        · right
          refine ⟨k + 1, a, d, by simpa using hk, hcand, by omega, ?_, ?_, ?_⟩
          · intro j b hj hb e2 he
            cases j with
            | zero =>
              simp at hb
              rw [← hb] at he
              rw [hc] at he
              have hde := Option.some_inj.mp he
              omega
            | succ j =>
              simp at hb
              exact hbefore j b (by omega) hb e2 he
          · intro j b hb e2 he
            cases j with
            | zero =>
              simp at hb
              rw [← hb] at he
              rw [hc] at he
              have hde := Option.some_inj.mp he
              omega
            | succ j =>
              simp at hb
              exact hall j b hb e2 he
          · rw [e, E]
            have hi : i0 + 1 + k = i0 + (k + 1) := by omega
            rw [hi]
      · have e : scanNextAux cw cm (c :: rest) i0 best bestD =
            scanNextAux cw cm rest (i0 + 1) best bestD := by
          simp [scanNextAux, hc, hlt0]
        rcases ih (i0 + 1) best bestD with ⟨H, E⟩ |
          ⟨k, a, d, hk, hcand, hlt, hbefore, hall, E⟩
        · left
          refine ⟨?_, e.trans E⟩
          intro k a hk d hd
          cases k with
          | zero =>
            simp at hk
            rw [← hk] at hd
            rw [hc] at hd
            have hde := Option.some_inj.mp hd
            omega
          | succ k =>
            simp at hk
            exact H k a hk d hd
        · right
          refine ⟨k + 1, a, d, by simpa using hk, hcand, hlt, ?_, ?_, ?_⟩
          · intro j b hj hb e2 he
            cases j with
            | zero =>
              simp at hb
              rw [← hb] at he
              rw [hc] at he
              have hde := Option.some_inj.mp he
              omega
            | succ j =>
              simp at hb
              exact hbefore j b (by omega) hb e2 he
          · intro j b hb e2 he
            cases j with
            | zero =>
              simp at hb
              rw [← hb] at he
              rw [hc] at he
              have hde := Option.some_inj.mp he
              omega
            | succ j =>
              simp at hb
              exact hall j b hb e2 he
          · rw [e, E]
            have hi : i0 + 1 + k = i0 + (k + 1) := by omega
            rw [hi]

/-- C3: `GetNextAlarmInfo` considers each Enabled alarm at day offsets
0..6 from today, keeping the first offset that qualifies (offset 0 is
skipped when the alarm time has already passed today, offsets > 0 are
skipped for one-shot alarms, and the offset's weekday must be active per
the alarm's weekday-active predicate) with distance
`offset*1440 + alarm_minutes - current_minutes`; it reports the alarm
attaining the global minimum distance, ties broken by first position in
stored order, and returns the "无活动闹钟" sentinel when no Enabled alarm
qualifies within the 7-day window. -/
theorem next_alarm_info_C3 (cw : Nat) (cm : Int) (alarms : List AlarmItem) :
    (∀ (a : AlarmItem) (d : Int), candEnabled cw cm a = some d ↔
       (a.status = AlarmStatus.enabled ∧
        ∃ k, k < 7 ∧ qualifiesAt cw cm a k ∧
          (∀ j, j < k → ¬ qualifiesAt cw cm a j) ∧
          d = offsetDistance cm a k)) ∧
    ((∀ (j : Nat) (b : AlarmItem), alarms[j]? = some b →
        b.status = AlarmStatus.enabled →
        ∀ k, k < 7 → ¬ qualifiesAt cw cm b k) →
      GetNextAlarmInfo cw cm alarms = "无活动闹钟") ∧
    (∀ (i : Nat) (a : AlarmItem) (d : Int),
       nextAlarmScan cw cm alarms = (some (i, a), d) →
       alarms[i]? = some a ∧ candEnabled cw cm a = some d ∧ d < 10080 ∧
       (∀ (j : Nat) (b : AlarmItem), alarms[j]? = some b →
          ∀ e, candEnabled cw cm b = some e → d ≤ e) ∧
       (∀ (j : Nat) (b : AlarmItem), j < i → alarms[j]? = some b →
          ∀ e, candEnabled cw cm b = some e → d < e) ∧
       GetNextAlarmInfo cw cm alarms = describeNextAlarm a d) := by
  refine ⟨?_, ?_, ?_⟩
  · intro a d
    by_cases hs : a.status = AlarmStatus.enabled
    · have he : candEnabled cw cm a = candOffset cw cm a := by
        simp [candEnabled, hs]
      rw [he, candOffset_spec cw cm a d]
      simp [hs]
    · simp [candEnabled, hs]
  · intro hnone
    rcases scanNextAux_spec cw cm alarms 0 none 10080 with ⟨H, E⟩ |
      ⟨k, a, d, hk, hcand, hlt, hbefore, hall, E⟩
    · simp [GetNextAlarmInfo, nextAlarmScan, E]
    · exfalso
      have hs : a.status = AlarmStatus.enabled := by
        by_contra hns
        have hnc : candEnabled cw cm a = none := by
          simp [candEnabled, hns]
        rw [hnc] at hcand
        exact absurd hcand (by simp)
      have hco : candOffset cw cm a = some d := by
        have he : candEnabled cw cm a = candOffset cw cm a := by
          simp [candEnabled, hs]
        rw [← he]
        exact hcand
      rcases (candOffset_spec cw cm a d).mp hco with ⟨k2, hk2, hq2, _, _⟩
      exact hnone k a hk hs k2 hk2 hq2
  · intro i a d hscan
    rw [nextAlarmScan] at hscan
    rcases scanNextAux_spec cw cm alarms 0 none 10080 with ⟨H, E⟩ |
      ⟨k, b, d2, hk, hcand, hlt, hbefore, hall, E⟩
    · rw [E] at hscan
      exact absurd (congrArg Prod.fst hscan) (by simp)
    · rw [E] at hscan
      have h3 : ((0 + k : Nat), b) = (i, a) :=
        Option.some_inj.mp (congrArg Prod.fst hscan)
      have hki : i = k := by
        have h4 := congrArg Prod.fst h3
        simpa using h4.symm
      have hba : a = b := (congrArg Prod.snd h3).symm
      have hdd : d = d2 := (congrArg Prod.snd hscan).symm
      subst hki
      subst hba
      subst hdd
      refine ⟨hk, hcand, hlt, hall, hbefore, ?_⟩
      simp [GetNextAlarmInfo, nextAlarmScan, E]

/-- Witness for C3: the sentinel on the empty store, and the winning
07:30 daily alarm 30 minutes ahead on the store `[w2alarm]`. -/
theorem next_alarm_info_C3_witness :
    GetNextAlarmInfo 2 420 [] = "无活动闹钟" ∧
    nextAlarmScan 2 420 [w2alarm] = (some (0, w2alarm), 30) ∧
    candEnabled 2 420 w2alarm = some 30 ∧
    GetNextAlarmInfo 2 420 [w2alarm] = describeNextAlarm w2alarm 30 := by
  have h := next_alarm_info_C3 2 420 []
  have g := next_alarm_info_C3 2 420 [w2alarm]
  have hs : nextAlarmScan 2 420 [w2alarm] = (some (0, w2alarm), 30) := by
    decide
  have g3 := g.2.2 0 w2alarm 30 hs
  refine ⟨h.2.1 ?_, hs, g3.2.1, g3.2.2.2.2.2⟩
  intro j b hb
  simp at hb
